import Mathlib

/-!
Verification of the agent RAG pipeline (src/main.py, src/preprocess.py):
a shallow embedding of the conversational controller graph, the chat and
upload endpoints, the preprocessing retriever pipeline and the PDF-to-
markdown converter, with theorems checking the specification's claims.
-/

namespace AgentRag

/-! ## Controller data model (src/main.py)

`AgentState` holds a message list whose update reducer is `add_messages`:
new messages are appended, messages whose id matches an existing one
replace it in place.  Every external LLM/tool call is abstracted as an
oracle so that the control flow of the graph itself is exact. -/

inductive Node where
  | agent
  | retrieve
  | rewrite
  | generate
  | endState
  deriving DecidableEq

/-- Payload of one message: content, whether it carries tool calls, id. -/
structure MsgData where
  content : String
  toolCalls : Bool
  id : Nat
  deriving DecidableEq

/-- Who produced a message: the user, or one of the graph nodes. -/
inductive Origin where
  | user
  | node (n : Node)
  deriving DecidableEq

structure Msg where
  data : MsgData
  origin : Origin
  deriving DecidableEq

/-- Replace the first message with the same id, else append (the merge
rule of the `add_messages` reducer for a single incoming message). -/
def upsert (m : Msg) : List Msg → List Msg
  | [] => [m]
  | x :: xs => if x.data.id = m.data.id then m :: xs else x :: upsert m xs

/-- The `add_messages` reducer of `AgentState.messages` (src/main.py:87-90):
each incoming message is appended, unless its id already occurs, in which
case it replaces the existing message. -/
def add_messages (left right : List Msg) : List Msg :=
  right.foldl (fun acc m => upsert m acc) left

/-- External calls made by the graph nodes, abstracted: the agent model
(with bound tools), the retriever tool, the structured grading call
(returning `binary_score`), the rewriting model and the generating chain. -/
structure Oracle where
  agentResp : List Msg → MsgData
  retrieveResp : List Msg → MsgData
  graderScore : List Msg → String
  rewriteResp : List Msg → MsgData
  generateResp : List Msg → MsgData

/-- `grade_documents` (src/main.py:94-149): asks the grading model for a
binary score and returns the edge name: "generate" iff the score is
exactly "yes", otherwise "rewrite". -/
def grade_documents (o : Oracle) (messages : List Msg) : String :=
  let score := o.graderScore messages
  if score = "yes" then "generate" else "rewrite"

/-- `tools_condition` (langgraph prebuilt, used at src/main.py:293-302):
routes to "tools" when the last message carries tool calls, else to END. -/
def tools_condition (messages : List Msg) : String :=
  match messages.getLast? with
  | some m => if m.data.toolCalls then "tools" else "END"
  | none => "END"

/-- The conditional edge out of "retrieve" (src/main.py:305-309) has no
mapping dict, so the string returned by `grade_documents` is used
directly as the next node's name. -/
def routeFromRetrieve (s : String) : Node :=
  if s = "generate" then Node.generate
  else if s = "rewrite" then Node.rewrite
  else Node.endState

structure GState where
  node : Node
  messages : List Msg
  deriving DecidableEq

/-- One superstep of the compiled workflow (src/main.py:279-314):
  agent: invoke the model, append its reply, branch on `tools_condition`;
  retrieve: run the tool node, append its output, branch on
    `grade_documents` evaluated on the updated state;
  rewrite: append the reformulated question, go back to agent;
  generate: append the final answer, go to END. -/
def step (o : Oracle) (s : GState) : GState :=
  match s.node with
  | Node.agent =>
      let response : Msg := ⟨o.agentResp s.messages, Origin.node Node.agent⟩
      let messages := add_messages s.messages [response]
      if tools_condition messages = "tools" then ⟨Node.retrieve, messages⟩
      else ⟨Node.endState, messages⟩
  | Node.retrieve =>
      let response : Msg := ⟨o.retrieveResp s.messages, Origin.node Node.retrieve⟩
      let messages := add_messages s.messages [response]
      ⟨routeFromRetrieve (grade_documents o messages), messages⟩
  | Node.rewrite =>
      let response : Msg := ⟨o.rewriteResp s.messages, Origin.node Node.rewrite⟩
      ⟨Node.agent, add_messages s.messages [response]⟩
  | Node.generate =>
      let response : Msg := ⟨o.generateResp s.messages, Origin.node Node.generate⟩
      ⟨Node.endState, add_messages s.messages [response]⟩
  | Node.endState => s

/-- Iterate the workflow `n` supersteps from a state. -/
def run (o : Oracle) (s : GState) : Nat → GState
  | 0 => s
  | n + 1 => step o (run o s n)

/-- The initial state built by the /chat handler (src/main.py:316-320):
a single user message holding the question. -/
def initState (q : String) : GState :=
  ⟨Node.agent, [⟨⟨q, false, 0⟩, Origin.user⟩]⟩

/-- The node the unbounded loop visits at superstep `n` when the agent
always requests tools and the grader never answers "yes". -/
def cycleNode (n : Nat) : Node :=
  if n % 3 = 0 then Node.agent
  else if n % 3 = 1 then Node.retrieve
  else Node.rewrite

/-! ## Streaming (src/main.py:325-356)

`stream_generator` walks the `(output, metadata)` event stream produced
by the graph.  A token is yielded (with a trailing space) when its
content is non-empty, strips to non-empty, and it came from the
"generate" or "agent" node; tokens from "retrieve" (and anything else)
are dropped. -/

structure StreamEvent where
  node : String
  content : String
  deriving DecidableEq

/-- Literal translation of the if/elif chain of `stream_generator`. -/
def stream_generator : List StreamEvent → List String
  | [] => []
  | e :: es =>
      if e.content ≠ "" ∧ e.content.trim ≠ "" ∧ e.node = "generate" then
        (e.content ++ " ") :: stream_generator es
      else if e.content ≠ "" ∧ e.content.trim ≠ "" ∧ e.node = "agent" then
        (e.content ++ " ") :: stream_generator es
      else if e.content ≠ "" ∧ e.content.trim ≠ "" ∧ e.node = "retrieve" then
        stream_generator es
      else
        stream_generator es

/-- The spec's description of the stream: one fragment per non-empty,
non-whitespace token of the "generate" and "agent" nodes, in order. -/
def emittedFragments (events : List StreamEvent) : List String :=
  (events.filter fun e =>
      decide (e.content ≠ "" ∧ e.content.trim ≠ "" ∧
        (e.node = "generate" ∨ e.node = "agent"))).map
    fun e => e.content ++ " "

/-! ## The /chat handler's index rebuild (src/main.py:248-267)

The handler imports `create_vector_store` and
`preprocess_document_to_markdown` from the preprocess module; neither is
defined there (see `preprocess_module_names` below), so both are
modelled from the spec. -/

/-- A vector store: the multiset of chunks added so far, as a list. -/
structure VectorDB where
  docs : List String
  deriving DecidableEq

/-- Modelled from the spec: `create_vector_store` is imported by
src/main.py from the preprocess module but the preprocess module does
not define it; per the spec (Indexer, and the rebuild-on-every-request
design note) it creates a new, empty similarity-searchable vector
store. -/
def create_vector_store (_api_key : String) : VectorDB := ⟨[]⟩

/-- `add_documents` is append-only (spec: Indexer, no dedup). -/
def VectorDB.add_documents (db : VectorDB) (documents : List String) : VectorDB :=
  ⟨db.docs ++ documents⟩

/-- The /chat handler's indexing phase (src/main.py:250-263): create a
fresh store, glob `uploads/*.pdf`, convert and chunk every file, and add
every chunk list to the fresh store.  `chunksOf` is modelled from the
spec: it stands for the imported but undefined
`preprocess_document_to_markdown` (Document Converter + Chunker: one PDF
in, its chunks out). -/
def chat_main (chunksOf : String → List String) (uploadsDir : List String) : VectorDB :=
  let vector_db := create_vector_store "api_key"
  let pdf_files := uploadsDir.filter fun name => name.endsWith ".pdf"
  let markdown_chunks := pdf_files.map chunksOf
  markdown_chunks.foldl (fun db doc => db.add_documents doc) vector_db

/-! ## Module import surface (src/preprocess.py, src/main.py:22-26) -/

/-- Every top-level name bound in src/preprocess.py: its six function
definitions plus the names it imports at module level. -/
def preprocess_module_names : List String :=
  ["convert_pdf_to_markdown", "load_markdown_files", "get_chunks",
   "store_chunks_into_vectorstore", "get_compressed_docs", "run_preprocess",
   "List", "pymupdf4llm", "UnstructuredMarkdownLoader",
   "ContextualCompressionRetriever", "CrossEncoderReranker",
   "RecursiveCharacterTextSplitter", "HuggingFaceCrossEncoder", "Chroma",
   "VectorStoreRetriever", "HuggingFaceEmbeddings", "OpenAIEmbeddings", "tool"]

/-- The names src/main.py imports from preprocess (lines 22-26). -/
def main_imports_from_preprocess : List String :=
  ["create_vector_store", "preprocess_document_to_markdown", "run_preprocess"]

/-- Python `from module import a, b, c` semantics: bind names in order,
raising ImportError naming the first one the module does not define. -/
def from_import_result (defined : List String) : List String → Except String Unit
  | [] => Except.ok ()
  | n :: ns =>
      if defined.contains n then from_import_result defined ns
      else Except.error n

/-! ## Retriever pipeline (src/preprocess.py:70-105)

The vector store search and the cross-encoder scores are external
collaborators; they enter as parameters `sel` (the diversity-aware MMR
candidate selection of the store) and `score` (the cross-encoder).  The
repository's contribution is the configuration and the composition. -/

inductive SearchType where
  | similarity
  | mmr
  deriving DecidableEq

structure SearchKwargs where
  k : Nat
  fetch_k : Nat
  deriving DecidableEq

/-- A vector store retriever: its search configuration plus the indexed
chunks. -/
structure Retriever where
  search_type : SearchType
  search_kwargs : SearchKwargs
  docs : List String
  deriving DecidableEq

/-- `store_chunks_into_vectorstore` (src/preprocess.py:70-86): index the
chunks and configure MMR search with k=10 over fetch_k=15. -/
def store_chunks_into_vectorstore (chunks : List String) : Retriever :=
  { search_type := SearchType.mmr
    search_kwargs := { k := 10, fetch_k := 15 }
    docs := chunks }

structure CrossEncoderReranker where
  top_n : Nat
  deriving DecidableEq

structure ContextualCompressionRetriever where
  base_compressor : CrossEncoderReranker
  base_retriever : Retriever
  deriving DecidableEq

/-- `get_compressed_docs` (src/preprocess.py:88-105): wrap the base
retriever with a cross-encoder reranker keeping the top 5. -/
def get_compressed_docs (retriever : Retriever) : ContextualCompressionRetriever :=
  { base_compressor := { top_n := 5 }
    base_retriever := retriever }

/-- The base retriever's search: the store's candidate selection applied
to the indexed docs with the configured fetch_k and k. -/
def vectorstoreSearch (sel : String → List String → Nat → Nat → List String)
    (r : Retriever) (q : String) : List String :=
  sel q r.docs r.search_kwargs.fetch_k r.search_kwargs.k

/-- Insert a document into a list kept in decreasing score order. -/
def insertDesc (score : String → Int) (d : String) : List String → List String
  | [] => [d]
  | e :: es => if score e ≤ score d then d :: e :: es else e :: insertDesc score d es

/-- Order documents by decreasing cross-encoder score. -/
def sortDesc (score : String → Int) : List String → List String
  | [] => []
  | d :: ds => insertDesc score d (sortDesc score ds)

/-- The cross-encoder reranker: score, order by decreasing relevance,
keep the first `top_n`. -/
def rerank (score : String → Int) (top_n : Nat) (docs : List String) : List String :=
  (sortDesc score docs).take top_n

/-- Invoking the compression retriever: base search, then rerank with
the compressor's top_n. -/
def compression_invoke (sel : String → List String → Nat → Nat → List String)
    (score : String → String → Int) (c : ContextualCompressionRetriever)
    (q : String) : List String :=
  rerank (score q) c.base_compressor.top_n (vectorstoreSearch sel c.base_retriever q)

/-! ## Upload endpoint (src/main.py:51-60) -/

/-- An uploaded file: its client-supplied filename and raw bytes. -/
structure UploadedFile where
  filename : String
  content : List Nat
  deriving DecidableEq

/-- The endpoint's JSON reply: a message dict or a filename dict. -/
inductive UploadResponse where
  | message (s : String)
  | filename (s : String)
  deriving DecidableEq

/-- The server's file area, as a path-to-bytes association list. -/
structure Fs where
  files : List (String × List Nat)
  deriving DecidableEq

/-- `open(path, "wb")` then write: the path now maps to the new bytes,
overwriting any previous entry. -/
def Fs.write (fs : Fs) (path : String) (content : List Nat) : Fs :=
  ⟨(path, content) :: fs.files.filter fun e => e.1 ≠ path⟩

/-- Read a path back from the file area. -/
def Fs.read (fs : Fs) (path : String) : Option (List Nat) :=
  (fs.files.find? fun e => e.1 = path).map fun e => e.2

/-- `upload_file` (src/main.py:51-60): with no file, reply
"No upload file sent" and leave the file area alone; with a file,
persist it under uploads/ keyed by its original filename and return
that filename. -/
def upload_file : Option UploadedFile → Fs → UploadResponse × Fs
  | none, fs => (UploadResponse.message "No upload file sent", fs)
  | some file, fs =>
      (UploadResponse.filename file.filename,
       fs.write ("uploads/" ++ file.filename) file.content)

/-! ## PDF-to-markdown converter (src/preprocess.py:17-33)

Paths are modelled as character lists so that the `split(".")` /
`".".join` path derivation can be reasoned about by induction.  The
conversion library call is the parameter `toMarkdown`; the source wraps
it in no try/except, and the repository defines no exception classes of
its own. -/

/-- Python `str.split(".")`: cut at every '.', keeping empty segments;
the empty string yields one empty segment. -/
def splitOnDot : List Char → List (List Char)
  | [] => [[]]
  | c :: cs =>
      if c = '.' then [] :: splitOnDot cs
      else
        match splitOnDot cs with
        | [] => [[c]]
        | s :: ss => (c :: s) :: ss

/-- Python `".".join`. -/
def joinDot : List (List Char) → List Char
  | [] => []
  | [s] => s
  | s :: ss => s ++ '.' :: joinDot ss

/-- Lines 26-28 of src/preprocess.py: split the path on '.', assign
"md" to the last segment, join with '.'. -/
def markdown_path (pdf_file : List Char) : List Char :=
  joinDot ((splitOnDot pdf_file).dropLast ++ [['m', 'd']])

/-- Exceptions the pymupdf conversion library raises itself. -/
inductive PdfLibError where
  | fileDataError (msg : String)
  | emptyFileError (msg : String)
  deriving DecidableEq

/-- Errors a conversion attempt could surface: a propagated library
exception, or the spec's `ConversionError` / `EmptyDocumentError`
classes (which no file of the repository defines). -/
inductive ConvertError where
  | libError (e : PdfLibError)
  | conversionError (msg : String)
  | emptyDocumentError (msg : String)
  deriving DecidableEq

/-- `convert_pdf_to_markdown` (src/preprocess.py:17-33): derive the
output path, call the conversion library, write the markdown, return
the path.  There is no exception handling, so a library error
propagates unchanged. -/
def convert_pdf_to_markdown (toMarkdown : List Char → Except ConvertError (List Char))
    (pdf_file : List Char) : Except ConvertError (List Char) :=
  match toMarkdown pdf_file with
  | Except.error e => Except.error e
  | Except.ok _md => Except.ok (markdown_path pdf_file)

/-- Decide whether a conversion result signalled the spec's
`ConversionError`. -/
def isConversionError : Except ConvertError (List Char) → Bool
  | Except.error (ConvertError.conversionError _) => true
  | _ => false

/-- Decide whether a conversion result signalled the spec's
`EmptyDocumentError`. -/
def isEmptyDocumentError : Except ConvertError (List Char) → Bool
  | Except.error (ConvertError.emptyDocumentError _) => true
  | _ => false

/-- A conversion library behaviour on an unreadable PDF: pymupdf raises
its own file-data error. -/
def corruptLib : List Char → Except ConvertError (List Char) :=
  fun _ => Except.error (ConvertError.libError
    (PdfLibError.fileDataError "cannot open broken document"))

/-- A conversion library behaviour on an empty file: pymupdf raises its
own empty-file error. -/
def emptyLib : List Char → Except ConvertError (List Char) :=
  fun _ => Except.error (ConvertError.libError
    (PdfLibError.emptyFileError "cannot open empty document"))

/-! ## Concrete instantiations used to evaluate the theorems -/

/-- The question message the /chat handler starts from in the concrete
evaluations below. -/
def wUserMsg : Msg := ⟨⟨"what is covered", false, 0⟩, Origin.user⟩

/-- A concrete oracle: the agent requests tools, the grader says "yes",
and each call produces a fresh id. -/
def wOracle : Oracle where
  agentResp _ := ⟨"agent reply", true, 10⟩
  retrieveResp _ := ⟨"retrieved docs", false, 11⟩
  graderScore _ := "yes"
  rewriteResp _ := ⟨"rewritten question", false, 12⟩
  generateResp _ := ⟨"final answer", false, 13⟩

/-- A concrete oracle driving the unbounded loop: the agent always
requests tools (with an id fresh for any message list), the grader
always answers "no". -/
def wOracle2 : Oracle where
  agentResp ms := ⟨"agent reply", true, (ms.map fun m => m.data.id).foldr max 0 + 1⟩
  retrieveResp _ := ⟨"retrieved docs", false, 0⟩
  graderScore _ := "no"
  rewriteResp _ := ⟨"rewritten question", false, 0⟩
  generateResp _ := ⟨"final answer", false, 0⟩

/-! ## Reducer lemmas -/

theorem upsert_of_fresh (m : Msg) :
    ∀ ms : List Msg, m.data.id ∉ ms.map (fun x => x.data.id) →
      upsert m ms = ms ++ [m] := by
  intro ms
  induction ms with
  | nil => intro _; rfl
  | cons x xs ih =>
      intro h
      simp only [List.map_cons, List.mem_cons, not_or] at h
      obtain ⟨h1, h2⟩ := h
      simp only [upsert]
      rw [if_neg fun he => h1 he.symm, ih h2]
      rfl

theorem add_messages_singleton (ms : List Msg) (m : Msg) :
    add_messages ms [m] = upsert m ms := rfl

/-- Unfolding one agent superstep when the agent's reply has a fresh id:
the reply is appended and routing follows its `toolCalls` flag. -/
theorem step_agent_eq (o : Oracle) (ms : List Msg)
    (h : (o.agentResp ms).id ∉ ms.map fun m => m.data.id) :
    step o ⟨Node.agent, ms⟩ =
      ⟨if (o.agentResp ms).toolCalls then Node.retrieve else Node.endState,
       ms ++ [⟨o.agentResp ms, Origin.node Node.agent⟩]⟩ := by
  have hadd : add_messages ms [⟨o.agentResp ms, Origin.node Node.agent⟩] =
      ms ++ [⟨o.agentResp ms, Origin.node Node.agent⟩] :=
    (add_messages_singleton ms _).trans (upsert_of_fresh _ ms h)
  cases htc : (o.agentResp ms).toolCalls <;>
    simp [step, hadd, tools_condition, htc]

/-- Unfolding one retrieve superstep when the tool output has a fresh
id: the output is appended and routing follows `grade_documents` on the
updated messages. -/
theorem step_retrieve_eq (o : Oracle) (ms : List Msg)
    (h : (o.retrieveResp ms).id ∉ ms.map fun m => m.data.id) :
    step o ⟨Node.retrieve, ms⟩ =
      ⟨routeFromRetrieve (grade_documents o
          (ms ++ [⟨o.retrieveResp ms, Origin.node Node.retrieve⟩])),
       ms ++ [⟨o.retrieveResp ms, Origin.node Node.retrieve⟩]⟩ := by
  have hadd : add_messages ms [⟨o.retrieveResp ms, Origin.node Node.retrieve⟩] =
      ms ++ [⟨o.retrieveResp ms, Origin.node Node.retrieve⟩] :=
    (add_messages_singleton ms _).trans (upsert_of_fresh _ ms h)
  simp [step, hadd]

/-- Unfolding one rewrite superstep when the reformulation has a fresh
id: it is appended and control returns to the agent node. -/
theorem step_rewrite_eq (o : Oracle) (ms : List Msg)
    (h : (o.rewriteResp ms).id ∉ ms.map fun m => m.data.id) :
    step o ⟨Node.rewrite, ms⟩ =
      ⟨Node.agent, ms ++ [⟨o.rewriteResp ms, Origin.node Node.rewrite⟩]⟩ := by
  have hadd : add_messages ms [⟨o.rewriteResp ms, Origin.node Node.rewrite⟩] =
      ms ++ [⟨o.rewriteResp ms, Origin.node Node.rewrite⟩] :=
    (add_messages_singleton ms _).trans (upsert_of_fresh _ ms h)
  simp [step, hadd]

/-- Unfolding one generate superstep when the answer has a fresh id: it
is appended and control reaches END. -/
theorem step_generate_eq (o : Oracle) (ms : List Msg)
    (h : (o.generateResp ms).id ∉ ms.map fun m => m.data.id) :
    step o ⟨Node.generate, ms⟩ =
      ⟨Node.endState, ms ++ [⟨o.generateResp ms, Origin.node Node.generate⟩]⟩ := by
  have hadd : add_messages ms [⟨o.generateResp ms, Origin.node Node.generate⟩] =
      ms ++ [⟨o.generateResp ms, Origin.node Node.generate⟩] :=
    (add_messages_singleton ms _).trans (upsert_of_fresh _ ms h)
  simp [step, hadd]

theorem routeFromRetrieve_rewrite : routeFromRetrieve "rewrite" = Node.rewrite := by
  decide

theorem routeFromRetrieve_generate : routeFromRetrieve "generate" = Node.generate := by
  decide

/-- C1: grading routing is deterministic given the classifier's output.
After the RETRIEVE superstep, if the grader's `binary_score` is "yes"
the controller transitions to GENERATE and the next appended message is
GENERATE-produced; for every other score it transitions to REWRITE and
the next appended message is REWRITE-produced. -/
theorem grading_routing_deterministic (o : Oracle) (msgs : List Msg)
    (h1 : (o.retrieveResp msgs).id ∉ msgs.map fun m => m.data.id)
    (h2 : (o.generateResp (msgs ++ [(⟨o.retrieveResp msgs, Origin.node Node.retrieve⟩ : Msg)])).id ∉
        (msgs ++ [(⟨o.retrieveResp msgs, Origin.node Node.retrieve⟩ : Msg)]).map fun m => m.data.id)
    (h3 : (o.rewriteResp (msgs ++ [(⟨o.retrieveResp msgs, Origin.node Node.retrieve⟩ : Msg)])).id ∉
        (msgs ++ [(⟨o.retrieveResp msgs, Origin.node Node.retrieve⟩ : Msg)]).map fun m => m.data.id) :
    (o.graderScore (step o ⟨Node.retrieve, msgs⟩).messages = "yes" →
      (step o ⟨Node.retrieve, msgs⟩).node = Node.generate ∧
      (step o (step o ⟨Node.retrieve, msgs⟩)).messages =
        (step o ⟨Node.retrieve, msgs⟩).messages ++
          [⟨o.generateResp (step o ⟨Node.retrieve, msgs⟩).messages,
            Origin.node Node.generate⟩]) ∧
    (o.graderScore (step o ⟨Node.retrieve, msgs⟩).messages ≠ "yes" →
      (step o ⟨Node.retrieve, msgs⟩).node = Node.rewrite ∧
      (step o (step o ⟨Node.retrieve, msgs⟩)).messages =
        (step o ⟨Node.retrieve, msgs⟩).messages ++
          [⟨o.rewriteResp (step o ⟨Node.retrieve, msgs⟩).messages,
            Origin.node Node.rewrite⟩]) := by
  rw [step_retrieve_eq o msgs h1]
  constructor
  · intro hy
    have hg : grade_documents o
        (msgs ++ [⟨o.retrieveResp msgs, Origin.node Node.retrieve⟩]) = "generate" := by
      unfold grade_documents
      rw [if_pos hy]
    rw [hg, routeFromRetrieve_generate]
    exact ⟨rfl, by rw [step_generate_eq o _ h2]⟩
  · intro hy
    have hg : grade_documents o
        (msgs ++ [⟨o.retrieveResp msgs, Origin.node Node.retrieve⟩]) = "rewrite" := by
      unfold grade_documents
      rw [if_neg hy]
    rw [hg, routeFromRetrieve_rewrite]
    exact ⟨rfl, by rw [step_rewrite_eq o _ h3]⟩

/-- C1 evaluated: with a concrete oracle whose grader answers "yes", the
retrieve superstep routes to GENERATE and the generated answer is the
next appended message. -/
theorem grading_routing_deterministic_witness :
    (step wOracle ⟨Node.retrieve, [wUserMsg]⟩).node = Node.generate ∧
    (step wOracle (step wOracle ⟨Node.retrieve, [wUserMsg]⟩)).messages =
      (step wOracle ⟨Node.retrieve, [wUserMsg]⟩).messages ++
        [⟨wOracle.generateResp (step wOracle ⟨Node.retrieve, [wUserMsg]⟩).messages,
          Origin.node Node.generate⟩] :=
  (grading_routing_deterministic wOracle [wUserMsg]
    (by decide) (by decide) (by decide)).1 (by decide)

/-- C4: each controller node call appends exactly one message and never
removes or reorders existing messages: the agent, rewrite, and generate
nodes each hand a single-element message list to the `add_messages`
reducer, which appends it after the unchanged prior sequence. -/
theorem nodes_append_exactly_one_message (o : Oracle) (msgs : List Msg)
    (h1 : (o.agentResp msgs).id ∉ msgs.map fun m => m.data.id)
    (h2 : (o.rewriteResp msgs).id ∉ msgs.map fun m => m.data.id)
    (h3 : (o.generateResp msgs).id ∉ msgs.map fun m => m.data.id) :
    (step o ⟨Node.agent, msgs⟩).messages =
      msgs ++ [⟨o.agentResp msgs, Origin.node Node.agent⟩] ∧
    (step o ⟨Node.rewrite, msgs⟩).messages =
      msgs ++ [⟨o.rewriteResp msgs, Origin.node Node.rewrite⟩] ∧
    (step o ⟨Node.generate, msgs⟩).messages =
      msgs ++ [⟨o.generateResp msgs, Origin.node Node.generate⟩] := by
  refine ⟨?_, ?_, ?_⟩
  · rw [step_agent_eq o msgs h1]
  · rw [step_rewrite_eq o msgs h2]
  · rw [step_generate_eq o msgs h3]

/-- C4 evaluated at a concrete oracle and message list. -/
theorem nodes_append_exactly_one_message_witness :
    (step wOracle ⟨Node.agent, [wUserMsg]⟩).messages =
      [wUserMsg] ++ [⟨wOracle.agentResp [wUserMsg], Origin.node Node.agent⟩] ∧
    (step wOracle ⟨Node.rewrite, [wUserMsg]⟩).messages =
      [wUserMsg] ++ [⟨wOracle.rewriteResp [wUserMsg], Origin.node Node.rewrite⟩] ∧
    (step wOracle ⟨Node.generate, [wUserMsg]⟩).messages =
      [wUserMsg] ++ [⟨wOracle.generateResp [wUserMsg], Origin.node Node.generate⟩] :=
  nodes_append_exactly_one_message wOracle [wUserMsg]
    (by decide) (by decide) (by decide)

/-! ## The unbounded AGENT-RETRIEVE-REWRITE loop -/

theorem le_foldr_max (l : List Nat) : ∀ x ∈ l, x ≤ l.foldr max 0 := by
  induction l with
  | nil => intro x hx; cases hx
  | cons a l ih =>
      intro x hx
      rcases List.mem_cons.mp hx with rfl | hx
      · exact le_max_left _ _
      · exact le_trans (ih x hx) (le_max_right _ _)

theorem foldr_max_succ_not_mem (l : List Nat) : l.foldr max 0 + 1 ∉ l := by
  intro h
  have := le_foldr_max l _ h
  omega

theorem cycleNode_ne_endState (n : Nat) : cycleNode n ≠ Node.endState := by
  unfold cycleNode
  split
  · simp
  · split <;> simp

/-- C2: the compiled graph enforces no bound on the loop.  If the
agent's reply always requests tool use (with a fresh id) and the grader
never returns "yes", the run visits AGENT, RETRIEVE, REWRITE cyclically
and never reaches the terminal END state, at any number of supersteps. -/
theorem agent_rewrite_cycle_unbounded (o : Oracle) (q : String)
    (htools : ∀ ms, (o.agentResp ms).toolCalls = true)
    (hfresh : ∀ ms, (o.agentResp ms).id ∉ ms.map fun m => m.data.id)
    (hgrade : ∀ ms, o.graderScore ms ≠ "yes") :
    ∀ n, (run o (initState q) n).node = cycleNode n ∧
      (run o (initState q) n).node ≠ Node.endState := by
  have key : ∀ n, (run o (initState q) n).node = cycleNode n := by
    intro n
    induction n with
    | zero => simp [run, initState, cycleNode]
    | succ n ih =>
        cases hst : run o (initState q) n with
        | mk nd ms =>
            rw [hst] at ih
            simp only [run, hst]
            rcases h3 : n % 3 with _ | _ | _ | k
            · have hnd : nd = Node.agent := by
                simpa [cycleNode, h3] using ih
              subst hnd
              have hmod : (n + 1) % 3 = 1 := by omega
              rw [step_agent_eq o ms (hfresh ms)]
              simp [htools ms, cycleNode, hmod]
            · have hnd : nd = Node.retrieve := by
                simpa [cycleNode, h3] using ih
              subst hnd
              have hmod : (n + 1) % 3 = 2 := by omega
              have hg : grade_documents o
                  (add_messages ms [⟨o.retrieveResp ms, Origin.node Node.retrieve⟩]) =
                  "rewrite" := by
                unfold grade_documents
                rw [if_neg (hgrade _)]
              simp [step, hg, routeFromRetrieve_rewrite, cycleNode, hmod]
            · have hnd : nd = Node.rewrite := by
                simpa [cycleNode, h3] using ih
              subst hnd
              have hmod : (n + 1) % 3 = 0 := by omega
              simp [step, cycleNode, hmod]
            · exfalso
              have := Nat.mod_lt n (show 0 < 3 by omega)
              omega
  intro n
  exact ⟨key n, by rw [key n]; exact cycleNode_ne_endState n⟩

/-- C2 evaluated: with the concrete always-tools, never-"yes" oracle the
run is still not at END after 4 supersteps. -/
theorem agent_rewrite_cycle_unbounded_witness :
    (run wOracle2 (initState "what is covered") 4).node = cycleNode 4 ∧
    (run wOracle2 (initState "what is covered") 4).node ≠ Node.endState :=
  agent_rewrite_cycle_unbounded wOracle2 "what is covered"
    (fun _ => rfl)
    (fun ms => foldr_max_succ_not_mem (ms.map fun m => m.data.id))
    (by intro ms; show ("no" : String) ≠ "yes"; decide) 4

/-! ## Streaming, import surface, index rebuild, upload -/

/-- C5: the chat response stream emits one fragment per non-empty,
non-whitespace content token of the "agent" and "generate" nodes, in
emission order, and emits nothing for tokens of the "retrieve" node. -/
theorem stream_emits_agent_generate_only :
    (∀ events, stream_generator events = emittedFragments events) ∧
    (∀ c, stream_generator [⟨"retrieve", c⟩] = []) := by
  constructor
  · intro events
    induction events with
    | nil => rfl
    | cons e es ih =>
        simp only [stream_generator, emittedFragments, List.filter_cons,
          decide_eq_true_eq] at *
        by_cases hc : e.content = ""
        · simp [hc, ih]
        · by_cases ht : e.content.trim = ""
          · simp [hc, ht, ih]
          · by_cases hg : e.node = "generate"
            · simp [hc, ht, hg, ih]
            · by_cases ha : e.node = "agent"
              · simp [hc, ht, hg, ha, ih]
              · by_cases hr : e.node = "retrieve" <;>
                  simp [hc, ht, hg, ha, hr, ih]
  · intro c
    by_cases hc : c = ""
    · subst hc; rfl
    · by_cases ht : c.trim = "" <;> simp [stream_generator, hc, ht]

/-- C3: the import `from preprocess import create_vector_store,
preprocess_document_to_markdown, run_preprocess` (src/main.py:22-26)
fails with an ImportError on the first name, because the preprocess
module defines neither `create_vector_store` nor
`preprocess_document_to_markdown` (it only defines the six listed
functions, alongside its own imports), so the main module never
loads and no endpoint can execute. -/
theorem main_import_from_preprocess_fails :
    from_import_result preprocess_module_names main_imports_from_preprocess =
      Except.error "create_vector_store" ∧
    "create_vector_store" ∉ preprocess_module_names ∧
    "preprocess_document_to_markdown" ∉ preprocess_module_names ∧
    "run_preprocess" ∈ preprocess_module_names := by
  refine ⟨rfl, ?_, ?_, ?_⟩ <;> decide

theorem foldl_add_documents (l : List (List String)) (db : VectorDB) :
    (l.foldl (fun d c => d.add_documents c) db).docs = db.docs ++ l.flatten := by
  induction l generalizing db with
  | nil => simp
  | cons c l ih =>
      rw [List.foldl_cons, ih]
      simp [VectorDB.add_documents, List.append_assoc]

/-- C6: every /chat call rebuilds the index from scratch: it starts
from a brand-new empty store and ends holding exactly the concatenated
chunks of every PDF currently in the uploads directory, so the per-
question indexing work covers all uploaded PDFs. -/
theorem chat_rebuilds_index_from_scratch (chunksOf : String → List String)
    (uploadsDir : List String) (key : String) :
    (create_vector_store key).docs = [] ∧
    (chat_main chunksOf uploadsDir).docs =
      ((uploadsDir.filter fun name => name.endsWith ".pdf").map chunksOf).flatten := by
  refine ⟨rfl, ?_⟩
  unfold chat_main create_vector_store
  simp [foldl_add_documents]

/-- C8: the upload endpoint with no file returns the "No upload file
sent" message and leaves the file area untouched; with a file it stores
the bytes under uploads/ keyed by the original filename (overwriting
any previous entry) and returns that filename. -/
theorem upload_endpoint_behavior :
    (∀ fs, upload_file none fs = (UploadResponse.message "No upload file sent", fs)) ∧
    (∀ f fs, (upload_file (some f) fs).1 = UploadResponse.filename f.filename ∧
      ((upload_file (some f) fs).2).read ("uploads/" ++ f.filename) =
        some f.content) := by
  refine ⟨fun fs => rfl, fun f fs => ⟨rfl, ?_⟩⟩
  simp [upload_file, Fs.write, Fs.read]

/-! ## Retriever pipeline lemmas -/

theorem mem_insertDesc (score : String → Int) (d a : String) :
    ∀ l, a ∈ insertDesc score d l ↔ a = d ∨ a ∈ l := by
  intro l
  induction l with
  | nil => simp [insertDesc]
  | cons e es ih =>
      by_cases h : score e ≤ score d
      · simp [insertDesc, h]
      · simp [insertDesc, h, ih]
        tauto

theorem mem_sortDesc (score : String → Int) (a : String) :
    ∀ l, a ∈ sortDesc score l ↔ a ∈ l := by
  intro l
  induction l with
  | nil => simp [sortDesc]
  | cons d ds ih => simp [sortDesc, mem_insertDesc, ih]

theorem pairwise_insertDesc (score : String → Int) (d : String) :
    ∀ l, l.Pairwise (fun a b => score b ≤ score a) →
      (insertDesc score d l).Pairwise (fun a b => score b ≤ score a) := by
  intro l
  induction l with
  | nil => intro _; simp [insertDesc]
  | cons e es ih =>
      intro h
      rw [List.pairwise_cons] at h
      obtain ⟨h1, h2⟩ := h
      by_cases hle : score e ≤ score d
      · rw [insertDesc, if_pos hle, List.pairwise_cons]
        refine ⟨?_, List.pairwise_cons.mpr ⟨h1, h2⟩⟩
        intro x hx
        rcases List.mem_cons.mp hx with rfl | hx
        · exact hle
        · exact le_trans (h1 x hx) hle
      · rw [insertDesc, if_neg hle, List.pairwise_cons]
        refine ⟨?_, ih h2⟩
        intro x hx
        rcases (mem_insertDesc score d x es).mp hx with rfl | hx
        · exact le_of_not_le hle
        · exact h1 x hx

theorem pairwise_sortDesc (score : String → Int) :
    ∀ l, (sortDesc score l).Pairwise (fun a b => score b ≤ score a) := by
  intro l
  induction l with
  | nil => simp [sortDesc]
  | cons d ds ih => exact pairwise_insertDesc score d _ ih

/-- C7: the preprocessing retriever is configured for diversity-aware
(MMR) search over fetch_k=15 index entries keeping k=10 candidates, and
its cross-encoder compressor truncates to the top_n=5 candidates of
highest score, most relevant first; the output is a plain list of
indexed chunks (no scores attached) and an empty index yields an empty
result rather than an error. -/
theorem retriever_mmr_rerank_pipeline
    (sel : String → List String → Nat → Nat → List String)
    (score : String → String → Int) (chunks : List String) (q : String)
    (hsel : ∀ q2 ds fk k2, ∀ d ∈ sel q2 ds fk k2, d ∈ ds) :
    (store_chunks_into_vectorstore chunks).search_type = SearchType.mmr ∧
    (store_chunks_into_vectorstore chunks).search_kwargs.k = 10 ∧
    (store_chunks_into_vectorstore chunks).search_kwargs.fetch_k = 15 ∧
    (get_compressed_docs (store_chunks_into_vectorstore chunks)).base_compressor.top_n = 5 ∧
    (∀ d ∈ compression_invoke sel score
        (get_compressed_docs (store_chunks_into_vectorstore chunks)) q, d ∈ chunks) ∧
    (compression_invoke sel score
        (get_compressed_docs (store_chunks_into_vectorstore chunks)) q).length ≤ 5 ∧
    (compression_invoke sel score
        (get_compressed_docs (store_chunks_into_vectorstore chunks)) q).Pairwise
      (fun a b => score q b ≤ score q a) ∧
    (chunks = [] → compression_invoke sel score
        (get_compressed_docs (store_chunks_into_vectorstore chunks)) q = []) := by
  have hinv : compression_invoke sel score
      (get_compressed_docs (store_chunks_into_vectorstore chunks)) q =
      (sortDesc (score q) (sel q chunks 15 10)).take 5 := rfl
  refine ⟨rfl, rfl, rfl, rfl, ?_, ?_, ?_, ?_⟩
  · intro d hd
    rw [hinv] at hd
    have hd2 : d ∈ sortDesc (score q) (sel q chunks 15 10) :=
      List.take_subset 5 _ hd
    exact hsel q chunks 15 10 d ((mem_sortDesc (score q) d _).mp hd2)
  · rw [hinv]
    exact List.length_take_le 5 _
  · rw [hinv]
    exact (pairwise_sortDesc (score q) _).sublist (List.take_sublist 5 _)
  · intro hempty
    subst hempty
    have hnil : sel q [] 15 10 = [] := by
      cases h : sel q ([] : List String) 15 10 with
      | nil => rfl
      | cons a l =>
          exact absurd (hsel q [] 15 10 a (by rw [h]; exact List.mem_cons_self a l))
            (List.not_mem_nil a)
    rw [hinv, hnil]
    rfl

/-- C7 evaluated: a concrete candidate selection (plain take) and a
concrete scorer on a two-chunk index. -/
theorem retriever_mmr_rerank_pipeline_witness :
    (store_chunks_into_vectorstore ["basic plan", "exclusions"]).search_type =
      SearchType.mmr ∧
    (store_chunks_into_vectorstore ["basic plan", "exclusions"]).search_kwargs.k = 10 ∧
    (store_chunks_into_vectorstore ["basic plan", "exclusions"]).search_kwargs.fetch_k = 15 ∧
    (get_compressed_docs (store_chunks_into_vectorstore
        ["basic plan", "exclusions"])).base_compressor.top_n = 5 ∧
    (∀ d ∈ compression_invoke (fun _ ds _ k2 => ds.take k2) (fun _ d => (d.length : Int))
        (get_compressed_docs (store_chunks_into_vectorstore ["basic plan", "exclusions"]))
        "coverage", d ∈ ["basic plan", "exclusions"]) ∧
    (compression_invoke (fun _ ds _ k2 => ds.take k2) (fun _ d => (d.length : Int))
        (get_compressed_docs (store_chunks_into_vectorstore ["basic plan", "exclusions"]))
        "coverage").length ≤ 5 ∧
    (compression_invoke (fun _ ds _ k2 => ds.take k2) (fun _ d => (d.length : Int))
        (get_compressed_docs (store_chunks_into_vectorstore ["basic plan", "exclusions"]))
        "coverage").Pairwise
      (fun a b => ((fun (_ : String) (d : String) => (d.length : Int)) "coverage" b ≤
        (fun (_ : String) (d : String) => (d.length : Int)) "coverage" a)) ∧
    (["basic plan", "exclusions"] = ([] : List String) →
      compression_invoke (fun _ ds _ k2 => ds.take k2) (fun _ d => (d.length : Int))
        (get_compressed_docs (store_chunks_into_vectorstore ["basic plan", "exclusions"]))
        "coverage" = []) :=
  retriever_mmr_rerank_pipeline (fun _ ds _ k2 => ds.take k2)
    (fun _ d => (d.length : Int)) ["basic plan", "exclusions"] "coverage"
    (fun _ ds _ k2 _ hd => List.take_subset k2 ds hd)

/-! ## Converter error behaviour -/

/-- C9 counterexample: on an unreadable PDF the converter does not
signal the spec's `ConversionError`; lacking any try/except, it
surfaces the conversion library's own file-data error unchanged (and
the repository defines no `ConversionError` or `EmptyDocumentError`
class anywhere). -/
theorem convert_no_conversion_error_counterexample :
    isConversionError (convert_pdf_to_markdown corruptLib ("corrupt.pdf".toList)) =
      false ∧
    convert_pdf_to_markdown corruptLib ("corrupt.pdf".toList) =
      Except.error (ConvertError.libError
        (PdfLibError.fileDataError "cannot open broken document")) ∧
    isEmptyDocumentError (convert_pdf_to_markdown emptyLib ("empty.pdf".toList)) =
      false ∧
    convert_pdf_to_markdown emptyLib ("empty.pdf".toList) =
      Except.error (ConvertError.libError
        (PdfLibError.emptyFileError "cannot open empty document")) :=
  ⟨rfl, rfl, rfl, rfl⟩

/-- C9 amended: `convert_pdf_to_markdown` performs no error mapping at
all — whatever error the conversion library raises propagates unchanged
to the caller. -/
theorem convert_propagates_library_errors
    (toMarkdown : List Char → Except ConvertError (List Char))
    (p : List Char) (e : ConvertError) (h : toMarkdown p = Except.error e) :
    convert_pdf_to_markdown toMarkdown p = Except.error e := by
  unfold convert_pdf_to_markdown
  rw [h]

/-- C9 amended, evaluated at the concrete corrupt-file library
behaviour. -/
theorem convert_propagates_library_errors_witness :
    convert_pdf_to_markdown corruptLib ("corrupt.pdf".toList) =
      Except.error (ConvertError.libError
        (PdfLibError.fileDataError "cannot open broken document")) :=
  convert_propagates_library_errors corruptLib ("corrupt.pdf".toList) _ rfl

/-! ## Path derivation lemmas -/

theorem splitOnDot_ne_nil (p : List Char) : splitOnDot p ≠ [] := by
  cases p with
  | nil => simp [splitOnDot]
  | cons c cs =>
      simp only [splitOnDot]
      split
      · simp
      · split <;> simp

theorem splitOnDot_no_dot : ∀ p : List Char, '.' ∉ p → splitOnDot p = [p] := by
  intro p
  induction p with
  | nil => intro _; rfl
  | cons c cs ih =>
      intro h
      have hc : ¬ (c = '.') := by
        intro hc
        exact h (by simp [hc])
      have hcs : '.' ∉ cs := fun hm => h (List.mem_cons_of_mem _ hm)
      simp only [splitOnDot, if_neg hc, ih hcs]

theorem splitOnDot_cons_dot (cs : List Char) :
    splitOnDot ('.' :: cs) = [] :: splitOnDot cs := rfl

theorem splitOnDot_cons_ne (c : Char) (cs : List Char) (hc : ¬ c = '.') :
    splitOnDot (c :: cs) =
      match splitOnDot cs with
      | [] => [[c]]
      | s :: ss => (c :: s) :: ss := by
  simp only [splitOnDot, if_neg hc]

theorem splitOnDot_append_cons (r : List Char) :
    ∀ q : List Char, splitOnDot (q ++ '.' :: r) = splitOnDot q ++ splitOnDot r := by
  intro q
  induction q with
  | nil => rfl
  | cons c q ih =>
      by_cases hc : c = '.'
      · subst hc
        rw [List.cons_append, splitOnDot_cons_dot, ih, splitOnDot_cons_dot,
          List.cons_append]
      · obtain ⟨s, ss, hs⟩ : ∃ s ss, splitOnDot q = s :: ss := by
          cases h : splitOnDot q with
          | nil => exact absurd h (splitOnDot_ne_nil q)
          | cons s ss => exact ⟨s, ss, rfl⟩
        rw [List.cons_append, splitOnDot_cons_ne c _ hc, ih, hs,
          splitOnDot_cons_ne c q hc, hs, List.cons_append]
        rfl

theorem joinDot_append_last (y : List Char) :
    ∀ xs : List (List Char), xs ≠ [] →
      joinDot (xs ++ [y]) = joinDot xs ++ '.' :: y := by
  intro xs
  induction xs with
  | nil => intro h; cases h rfl
  | cons s ss ih =>
      intro _
      cases ss with
      | nil => rfl
      | cons t ts =>
          have hrec := ih (by simp)
          calc joinDot ((s :: t :: ts) ++ [y])
              = s ++ '.' :: joinDot ((t :: ts) ++ [y]) := rfl
            _ = s ++ '.' :: (joinDot (t :: ts) ++ '.' :: y) := by rw [hrec]
            _ = (s ++ '.' :: joinDot (t :: ts)) ++ '.' :: y := by simp
            _ = joinDot (s :: t :: ts) ++ '.' :: y := rfl

theorem joinDot_splitOnDot : ∀ p : List Char, joinDot (splitOnDot p) = p := by
  intro p
  induction p with
  | nil => rfl
  | cons c cs ih =>
      obtain ⟨s, ss, hs⟩ : ∃ s ss, splitOnDot cs = s :: ss := by
        cases h : splitOnDot cs with
        | nil => exact absurd h (splitOnDot_ne_nil cs)
        | cons s ss => exact ⟨s, ss, rfl⟩
      rw [hs] at ih
      by_cases hc : c = '.'
      · subst hc
        simp only [splitOnDot, if_pos rfl, hs]
        show joinDot ([] :: s :: ss) = '.' :: cs
        simp only [joinDot, List.nil_append]
        rw [ih]
      · simp only [splitOnDot, if_neg hc, hs]
        cases ss with
        | nil =>
            show joinDot [c :: s] = c :: cs
            simp only [joinDot] at ih ⊢
            rw [ih]
        | cons t ts =>
            show joinDot ((c :: s) :: t :: ts) = c :: cs
            simp only [joinDot, List.cons_append] at ih ⊢
            rw [← ih]

/-- C10: the markdown path is derived by splitting the input on every
'.' and replacing the last segment with "md": an input with at least
one '.' maps to everything before its last '.' followed by ".md"; an
input with no '.' at all maps to the bare name "md".  In the successful
case the converter returns exactly this derived path. -/
theorem markdown_path_derivation :
    (∀ p : List Char, '.' ∉ p → markdown_path p = ['m', 'd']) ∧
    (∀ q r : List Char, '.' ∉ r →
      markdown_path (q ++ '.' :: r) = q ++ '.' :: ['m', 'd']) ∧
    (∀ (toMarkdown : List Char → Except ConvertError (List Char)) p md,
      toMarkdown p = Except.ok md →
      convert_pdf_to_markdown toMarkdown p = Except.ok (markdown_path p)) := by
  refine ⟨?_, ?_, ?_⟩
  · intro p hp
    unfold markdown_path
    rw [splitOnDot_no_dot p hp]
    rfl
  · intro q r hr
    unfold markdown_path
    rw [splitOnDot_append_cons r q, splitOnDot_no_dot r hr]
    have hdrop : (splitOnDot q ++ [r]).dropLast = splitOnDot q := by
      simp
    rw [hdrop, joinDot_append_last ['m', 'd'] (splitOnDot q) (splitOnDot_ne_nil q),
      joinDot_splitOnDot q]
  · intro toMarkdown p md h
    unfold convert_pdf_to_markdown
    rw [h]

/-- C10 evaluated: "doc.pdf" maps to "doc.md", and a dot-free input
maps to the bare name "md". -/
theorem markdown_path_derivation_witness :
    markdown_path ("doc".toList ++ '.' :: "pdf".toList) =
      "doc".toList ++ '.' :: ['m', 'd'] ∧
    markdown_path ("archive".toList) = ['m', 'd'] :=
  ⟨markdown_path_derivation.2.1 "doc".toList "pdf".toList (by decide),
   markdown_path_derivation.1 "archive".toList (by decide)⟩

end AgentRag
